import Mathlib

/-!
Shallow embedding of `csv_to_opentrons_generator.py`: the plan-compiler core
(row validation, column classification, batching, well assignment, transfer
grouping, instrument routing) of the CSV → Opentrons protocol generator.
Tables are modelled as lists of association-list rows over a `Value` type
(numeric cell, string cell, or missing/NaN); volumes are rationals.
-/

namespace CsvGen

/-- A cell value of the table: a numeric value, a string, or missing (NaN). -/
inductive Value where
  | num : ℚ → Value
  | str : String → Value
  | nan : Value
deriving DecidableEq

/-- A table row: an association list from column name to cell value. -/
abbrev Row := List (String × Value)

/-- Read a cell from a row; a column absent from the row reads as NaN
(mirrors the NaN a pandas reindex would give; the script only reads
columns that exist). -/
def getCell (r : Row) (c : String) : Value :=
  match r.lookup c with
  | some v => v
  | none => Value.nan

/-- A data frame: an ordered list of column names plus an ordered list of
rows. Mirrors the pandas `DataFrame` as used by the script (positional
indexing only; `reset_index(drop=True)` makes indices positional). -/
structure DataFrame where
  columns : List String
  rows : List Row
deriving DecidableEq

/-- `leadsWith pat s` is true when `pat` occurs at the very start of `s`
(character lists). -/
def leadsWith : List Char → List Char → Bool
  | [], _ => true
  | _ :: _, [] => false
  | p :: ps, c :: cs => p == c && leadsWith ps cs

/-- `occursIn pat s`: `pat` occurs contiguously somewhere in `s`
(Python's `pat in s` on strings). -/
def occursIn (pat : List Char) : List Char → Bool
  | [] => leadsWith pat []
  | s@(_ :: cs) => leadsWith pat s || occursIn pat cs

/-- Python `needle in hay` for strings: contiguous substring test. -/
def strContains (hay needle : String) : Bool :=
  occursIn needle.toList hay.toList

/-- Python `str.lower()`: lowercase every character (the script only
lowercases ASCII column names). -/
def lowerStr (s : String) : String := String.mk (s.data.map Char.toLower)

/-- Python truth of `v > 0` on a cell, as pandas evaluates it: positive
numeric cells only (`NaN > 0` is `False`). -/
def posVal : Value → Bool
  | Value.num q => decide (0 < q)
  | _ => false

/-- `filter_valid_wells` (source lines 74–92): find the columns whose
lowercased name contains `"water"`; if none, warn and return the frame
unchanged; else keep the rows whose value in the first such column is > 0.
Returns the frame together with a flag recording whether the warning
was signalled. -/
def filter_valid_wells (df : DataFrame) : DataFrame × Bool :=
  let water_cols := df.columns.filter (fun c => strContains (lowerStr c) "water")
  match water_cols with
  | [] => (df, true)
  | wc :: _ => ({ df with rows := df.rows.filter (fun r => posVal (getCell r wc)) }, false)

/-- Chunk a list into consecutive blocks of 28 (the loop
`for i in range(0, total_rows, max_wells)` in `segment_data`,
source lines 94–104, with the default `max_wells=28`). -/
def chunk28 {α : Type} : List α → List (List α)
  | [] => []
  | a :: as => ((a :: as).take 28) :: chunk28 ((a :: as).drop 28)
termination_by l => l.length
decreasing_by
  simp only [List.length_drop, List.length_cons]
  omega

/-- `segment_data` (source lines 94–104): split the frame's rows into
ordered segments of at most 28 rows, keeping the column list. -/
def segment_data (df : DataFrame) : List DataFrame :=
  (chunk28 df.rows).map (fun rs => { columns := df.columns, rows := rs })

/-- The tokens that mark a well-position column in `get_well_positions`
(source line 109). -/
def posTokens : List String := ["well", "position", "pos"]

/-- Does a column name (lowercased) contain one of the position tokens? -/
def hasPosToken (c : String) : Bool :=
  posTokens.any (fun t => strContains (lowerStr c) t)

/-- The grid row letters of the 96-well plate (source line 116). -/
def rowLetters : List String := ["A", "B", "C", "D", "E", "F", "G", "H"]

/-- The synthesized well label for the `i`-th row of a segment
(source lines 119–128): row-major over the 8×12 grid, `X{i}` on
overflow past slot 96. -/
def synthWell (i : Nat) : String :=
  if i < 8 * 12 then
    (rowLetters.getD (i / 12) "") ++ toString (i % 12 + 1)
  else
    "X" ++ toString i

/-- `get_well_positions` (source lines 106–130): if some column name
contains a position token, return that column's values verbatim in row
order; otherwise synthesize one label per row from the fixed grid. -/
def get_well_positions (df : DataFrame) : List Value :=
  match df.columns.find? hasPosToken with
  | some c => df.rows.map (fun r => getCell r c)
  | none => (List.range df.rows.length).map (fun i => Value.str (synthWell i))

/-- The reagent → token-list pattern table of `identify_columns`
(source lines 137–142), in the dict's insertion order. -/
def patterns : List (String × List String) :=
  [("glycine", ["gly", "2.4m", "glycine"]),
   ("nacl", ["nacl", "5m", "salt"]),
   ("tris", ["tris", "buffer", "0.5m"]),
   ("water", ["water", "h2o"])]

/-- `identify_columns` (source lines 132–151): for each reagent of the
pattern table, bind the first column whose lowercased name contains one
of the reagent's tokens; reagents with no matching column are absent. -/
def identify_columns (df : DataFrame) : List (String × String) :=
  patterns.filterMap (fun p =>
    (df.columns.find? (fun c => p.2.any (fun t => strContains (lowerStr c) t))).map
      (fun col => (p.1, col)))

/-- The `tube_position` of each reagent in `LIQUID_DEFINITIONS`
(source lines 36–61); the script only looks reagents of the fixed set up. -/
def tube_position : String → String
  | "glycine" => "A1"
  | "nacl" => "A2"
  | "tris" => "B1"
  | "water" => "B2"
  | _ => ""

/-- A Transfer Request as built by `group_by_reagent_and_volume`
(source lines 393–399). -/
structure Transfer where
  reagent : String
  volume : ℚ
  source_tube : String
  wells : List Value
  count : Nat
deriving DecidableEq

/-- The numeric content of a cell, if any. -/
def cellNum : Value → Option ℚ
  | Value.num q => some q
  | _ => none

/-- Insert a key into an ascending duplicate-free list, keeping it
ascending and duplicate-free. -/
def insertAsc (q : ℚ) : List ℚ → List ℚ
  | [] => [q]
  | x :: xs =>
    if q < x then q :: x :: xs
    else if q = x then x :: xs
    else x :: insertAsc q xs

/-- The distinct keys of a list, in ascending order: the group keys of
pandas `df.groupby(col)` (sorted, NaN dropped). -/
def sortedKeys (l : List ℚ) : List ℚ := l.foldr insertAsc []

/-- The group keys of `df.groupby(col_name)` (source line 384): the
distinct numeric values of the column, ascending; missing (NaN) cells
contribute no key. -/
def volKeys (df : DataFrame) (col : String) : List ℚ :=
  sortedKeys (df.rows.filterMap (fun r => cellNum (getCell r col)))

/-- `group.index` for the group of key `v`: the (positional) indices of
the rows whose cell in `col` equals `v`, in original row order (after
`reset_index(drop=True)` the frame's index is `0..n-1`). -/
def volIndices (df : DataFrame) (col : String) (v : ℚ) : List Nat :=
  (List.range df.rows.length).filter
    (fun i => getCell (df.rows.getD i []) col = Value.num v)

/-- The fixed reagent processing order of `group_by_reagent_and_volume`
(source line 374). -/
def reagent_order : List String := ["tris", "nacl", "glycine", "water"]

/-- The Transfer Request the loop body at source lines 393–399 appends for
one group key `v` of reagent `reagent` bound to column `col`. -/
def mkTransfer (df : DataFrame) (well_positions : List Value)
    (reagent col : String) (v : ℚ) : Transfer :=
  let wells := (volIndices df col v).map (fun idx => well_positions.getD idx Value.nan)
  { reagent := reagent
    volume := v
    source_tube := tube_position reagent
    wells := wells
    count := wells.length }

/-- The Transfer Requests one reagent contributes (the body of the outer
loop of `group_by_reagent_and_volume`, source lines 376–399): skip an
unbound reagent; group the column by value; skip groups with key ≤ 0;
emit one request per remaining key, wells in row order. -/
def transfersFor (df : DataFrame) (columns : List (String × String))
    (well_positions : List Value) (reagent : String) : List Transfer :=
  match columns.lookup reagent with
  | none => []
  | some col =>
    ((volKeys df col).filter (fun v => !(v ≤ 0))).map
      (mkTransfer df well_positions reagent col)

/-- `group_by_reagent_and_volume` (source lines 369–401). -/
def group_by_reagent_and_volume (df : DataFrame) (columns : List (String × String))
    (well_positions : List Value) : List Transfer :=
  (reagent_order.map (transfersFor df columns well_positions)).flatten

/-- `select_pipette` (source lines 255–260): volume ≤ 20 routes to the
right-mounted p20, anything larger to the left-mounted p300. -/
def select_pipette (volume : ℚ) : String × String :=
  if volume ≤ 20 then ("pipette_right", "p20_single_gen2")
  else ("pipette_left", "p300_single_gen2")

/-- The routed transfer list of one segment
(`generate_protocol_steps_for_segment`, source lines 403–431): assign
wells, group, keep requests with a positive count, and route each by
volume. -/
def segment_output (columns : List (String × String)) (seg : DataFrame) :
    List (Transfer × (String × String)) :=
  let well_positions := get_well_positions seg
  ((group_by_reagent_and_volume seg columns well_positions).filter
      (fun t => 0 < t.count)).map (fun t => (t, select_pipette t.volume))

/-- `generate_full_protocol` (source lines 433–492), with table ingestion
and text templating abstracted: `none` in is the unreadable-table failure
of `read_csv_data` and yields `none` out; otherwise filter, classify
columns, segment, and produce one routed transfer list per segment. -/
def generate_full_protocol (input : Option DataFrame) :
    Option (List (List (Transfer × (String × String)))) :=
  match input with
  | none => none
  | some df =>
    let df_filtered := (filter_valid_wells df).1
    let columns := identify_columns df_filtered
    let segments := segment_data df_filtered
    some (segments.map (segment_output columns))

/-- The `if generated_files:` branch of `main` (source lines 509–525):
Python truthiness reports success only for a non-`None`, non-empty
result list. -/
def main_success {α : Type} : Option (List α) → Bool
  | none => false
  | some l => !l.isEmpty

/-! ### Concrete tables used by the witness theorems -/

/-- A 29-row frame used to witness the batcher theorem. -/
def df29 : DataFrame := { columns := ["c"], rows := List.replicate 29 [] }

/-- An empty frame used to witness the batcher theorem. -/
def df0 : DataFrame := { columns := ["c"], rows := [] }

/-- A 28-row frame used to witness the batcher theorem. -/
def df28 : DataFrame := { columns := ["c"], rows := List.replicate 28 [] }

/-- A two-row frame with a water column, witnessing C6. -/
def dfW : DataFrame :=
  { columns := ["Water_vol"],
    rows := [[("Water_vol", Value.num 1)], [("Water_vol", Value.num 0)]] }

/-- A frame without a water column, witnessing C6. -/
def dfNoW : DataFrame := { columns := ["salt"], rows := [[("salt", Value.num 1)]] }

/-- A 13-row frame with no position column, witnessing C2. -/
def dfG : DataFrame := { columns := ["Gly"], rows := List.replicate 13 [] }

/-- A frame whose columns exercise the classifier, witnessing C8. -/
def dfI : DataFrame :=
  { columns := ["Well", "Gly_2.4M", "NaCl_5M", "Water_vol"], rows := [] }

/-- A three-row glycine table (volumes 5, 10, 5), witnessing the grouper
theorems. -/
def dfT : DataFrame :=
  { columns := ["Gly_2.4M"],
    rows := [[("Gly_2.4M", Value.num 5)], [("Gly_2.4M", Value.num 10)],
             [("Gly_2.4M", Value.num 5)]] }

/-- The column bindings of `dfT`. -/
def colsT : List (String × String) := identify_columns dfT

/-- The synthesized positions of `dfT`. -/
def wpT : List Value := get_well_positions dfT

/-- The volume-5 glycine Transfer Request of `dfT`. -/
def trT : Transfer := mkTransfer dfT wpT "glycine" "Gly_2.4M" 5

/-- The position of a reagent in the fixed processing sequence
`reagent_order` (tris, nacl, glycine, water). -/
def reagentPriority : String → Nat
  | "tris" => 0
  | "nacl" => 1
  | "glycine" => 2
  | "water" => 3
  | _ => 4

/-- A two-row glycine table whose second row has a missing value,
witnessing C10. -/
def dfN : DataFrame :=
  { columns := ["Gly_2.4M"],
    rows := [[("Gly_2.4M", Value.num 5)], [("Gly_2.4M", Value.nan)]] }

/-- The column bindings of `dfN`. -/
def colsN : List (String × String) := identify_columns dfN

/-- The synthesized positions of `dfN`. -/
def wpN : List Value := get_well_positions dfN

/-- The volume-5 glycine Transfer Request of `dfN`. -/
def trN : Transfer := mkTransfer dfN wpN "glycine" "Gly_2.4M" 5

/-- A one-row table whose only row fails validation (water volume 0),
so the validated row set is empty. -/
def dfE : DataFrame := { columns := ["Water_vol"], rows := [[("Water_vol", Value.num 0)]] }

/-! ### Lemmas about the Batcher -/

theorem chunk28_flatten {α : Type} (l : List α) : (chunk28 l).flatten = l := by
  induction l using chunk28.induct with
  | case1 => rw [chunk28]; rfl
  | case2 a as ih =>
    rw [chunk28]
    simp only [List.flatten_cons, ih, List.take_append_drop]

theorem chunk28_length {α : Type} (l : List α) :
    (chunk28 l).length = (l.length + 27) / 28 := by
  induction l using chunk28.induct with
  | case1 => rw [chunk28]; simp
  | case2 a as ih =>
    rw [chunk28]
    simp only [List.length_cons, ih, List.length_drop]
    omega

theorem chunk28_getD {α : Type} (l : List α) (i : Nat) :
    (chunk28 l).getD i [] = (l.drop (i * 28)).take 28 := by
  induction l using chunk28.induct generalizing i with
  | case1 => simp [chunk28]
  | case2 a as ih =>
    rw [chunk28]
    match i with
    | 0 => simp
    | j + 1 =>
      simp only [List.getD_cons_succ, ih j, List.drop_drop]
      congr 2
      ring

theorem segment_data_rows (df : DataFrame) (i : Nat) :
    ((segment_data df).getD i { columns := df.columns, rows := [] }).rows =
      (df.rows.drop (i * 28)).take 28 := by
  unfold segment_data
  rw [show ({ columns := df.columns, rows := [] } : DataFrame) =
      (fun rs => ({ columns := df.columns, rows := rs } : DataFrame)) [] from rfl,
    List.getD_map, chunk28_getD]

/-- C1. The Batcher partitions the validated rows exactly: segment `i` is
rows `[i*28, (i+1)*28)`, concatenating segments reproduces the input, and
the segment count is `⌈n/28⌉` (so `n = 0` gives 0 segments, `n = 28` gives
1, and `n = 29` gives 2 segments of sizes 28 and 1). -/
theorem batcher_partitions_exactly (df : DataFrame) :
    ((segment_data df).map DataFrame.rows).flatten = df.rows
    ∧ (segment_data df).length = (df.rows.length + 27) / 28
    ∧ (∀ i : Nat,
        ((segment_data df).getD i { columns := df.columns, rows := [] }).rows =
          (df.rows.drop (i * 28)).take 28)
    ∧ (df.rows.length = 0 → (segment_data df).length = 0)
    ∧ (df.rows.length = 28 → (segment_data df).length = 1)
    ∧ (df.rows.length = 29 →
        (segment_data df).length = 2
        ∧ ((segment_data df).getD 0 { columns := df.columns, rows := [] }).rows.length = 28
        ∧ ((segment_data df).getD 1 { columns := df.columns, rows := [] }).rows.length = 1) := by
  refine ⟨?_, ?_, segment_data_rows df, ?_, ?_, ?_⟩
  · unfold segment_data
    rw [List.map_map]
    have : DataFrame.rows ∘ (fun rs => ({ columns := df.columns, rows := rs } : DataFrame)) = id := rfl
    rw [this, List.map_id, chunk28_flatten]
  · unfold segment_data
    rw [List.length_map, chunk28_length]
  · intro h
    unfold segment_data
    rw [List.length_map, chunk28_length, h]
  · intro h
    unfold segment_data
    rw [List.length_map, chunk28_length, h]
  · intro h
    refine ⟨?_, ?_, ?_⟩
    · unfold segment_data
      rw [List.length_map, chunk28_length, h]
    · rw [segment_data_rows]
      simp only [List.length_take, List.length_drop, h]
      omega
    · rw [segment_data_rows]
      simp only [List.length_take, List.length_drop, h]
      omega

/-- Witness for C1 at the concrete 0-, 28- and 29-row frames. -/
theorem batcher_partitions_exactly_witness :
    (df0.rows.length = 0 ∧ (segment_data df0).length = 0)
    ∧ (df28.rows.length = 28 ∧ (segment_data df28).length = 1)
    ∧ (df29.rows.length = 29 ∧ (segment_data df29).length = 2
        ∧ ((segment_data df29).getD 0 { columns := df29.columns, rows := [] }).rows.length = 28
        ∧ ((segment_data df29).getD 1 { columns := df29.columns, rows := [] }).rows.length = 1) :=
  ⟨⟨rfl, (batcher_partitions_exactly df0).2.2.2.1 rfl⟩,
   ⟨rfl, (batcher_partitions_exactly df28).2.2.2.2.1 rfl⟩,
   ⟨rfl, (batcher_partitions_exactly df29).2.2.2.2.2 rfl⟩⟩

/-! ### Instrument Router -/

/-- C5. The Instrument Router is a pure total function of the volume:
volumes ≤ 20 route to the right-mounted low-volume pipette (p20), all
others to the left-mounted high-volume pipette (p300); in particular
`route 20` is low-volume, `route 20.0001` is high-volume and `route 5`
is low-volume. -/
theorem router_pure_total (v : ℚ) :
    (v ≤ 20 → select_pipette v = ("pipette_right", "p20_single_gen2"))
    ∧ (¬ v ≤ 20 → select_pipette v = ("pipette_left", "p300_single_gen2"))
    ∧ select_pipette 20 = ("pipette_right", "p20_single_gen2")
    ∧ select_pipette (200001 / 10000) = ("pipette_left", "p300_single_gen2")
    ∧ select_pipette 5 = ("pipette_right", "p20_single_gen2") := by
  refine ⟨?_, ?_, ?_, ?_, ?_⟩
  · intro h
    rw [select_pipette, if_pos h]
  · intro h
    rw [select_pipette, if_neg h]
  · rw [select_pipette, if_pos (by norm_num)]
  · rw [select_pipette, if_neg (by norm_num)]
  · rw [select_pipette, if_pos (by norm_num)]

/-- Witness for C5 at volumes 5 and 25. -/
theorem router_pure_total_witness :
    ((5 : ℚ) ≤ 20 ∧ select_pipette 5 = ("pipette_right", "p20_single_gen2"))
    ∧ (¬ (25 : ℚ) ≤ 20 ∧ select_pipette 25 = ("pipette_left", "p300_single_gen2")) :=
  ⟨⟨by norm_num, (router_pure_total 5).1 (by norm_num)⟩,
   ⟨by norm_num, (router_pure_total 25).2.1 (by norm_num)⟩⟩

/-! ### Row Validator -/

/-- C6. The Row Validator: when some column name (lowercased) contains
the diluent token `"water"`, the result keeps exactly the rows whose
value in the first such column is strictly positive, in original order
(a sublist of the input); when no column matches, the input is returned
unchanged with the non-fatal warning flag set. -/
theorem row_validator_filters (df : DataFrame) :
    (∀ wc rest,
        df.columns.filter (fun c => strContains (lowerStr c) "water") = wc :: rest →
        filter_valid_wells df =
          ({ columns := df.columns,
             rows := df.rows.filter (fun r => posVal (getCell r wc)) }, false)
        ∧ (filter_valid_wells df).1.rows.Sublist df.rows)
    ∧ (df.columns.filter (fun c => strContains (lowerStr c) "water") = [] →
        filter_valid_wells df = (df, true))
    ∧ (∀ (r : Row) (c : String),
        posVal (getCell r c) = true ↔ ∃ q, getCell r c = Value.num q ∧ 0 < q) := by
  refine ⟨?_, ?_, ?_⟩
  · intro wc rest h
    have hfw : filter_valid_wells df =
        ({ columns := df.columns,
           rows := df.rows.filter (fun r => posVal (getCell r wc)) }, false) := by
      unfold filter_valid_wells
      rw [h]
    refine ⟨hfw, ?_⟩
    rw [hfw]
    exact List.filter_sublist df.rows
  · intro h
    unfold filter_valid_wells
    rw [h]
  · intro r c
    cases h : getCell r c with
    | num q => simp [posVal]
    | str s => simp [posVal]
    | nan => simp [posVal]

/-- Witness for C6 at a frame with and a frame without a water column. -/
theorem row_validator_filters_witness :
    (dfW.columns.filter (fun c => strContains (lowerStr c) "water") = ["Water_vol"]
      ∧ filter_valid_wells dfW =
          ({ columns := dfW.columns,
             rows := dfW.rows.filter (fun r => posVal (getCell r "Water_vol")) }, false))
    ∧ (dfNoW.columns.filter (fun c => strContains (lowerStr c) "water") = []
      ∧ filter_valid_wells dfNoW = (dfNoW, true)) :=
  ⟨⟨by decide, ((row_validator_filters dfW).1 "Water_vol" [] (by decide)).1⟩,
   ⟨by decide, (row_validator_filters dfNoW).2.1 (by decide)⟩⟩

/-! ### Well Assigner -/

theorem synthLabels_nodup_96 :
    (((List.range 96).map (fun i => Value.str (synthWell i)))).Nodup := by decide

theorem getD_map_range {β : Type} (f : Nat → β) (n i : Nat) (hi : i < n) (d : β) :
    (((List.range n).map f).getD i d) = f i := by
  rw [List.getD_eq_getElem?_getD, List.getElem?_map, List.getElem?_range hi]
  rfl

/-- C2. The Well Assigner, on a segment with no explicit position column,
synthesizes positions by enumerating the 8×12 grid row-major: slot `i`
(for `i < 96`) is row letter `i / 12` next to column number `i % 12 + 1`,
so rows 0..11 get `A1..A12` and rows 12..23 get `B1..B12`; the enumeration
is a function of the segment's row count alone (so it restarts at `A1` for
every segment); and within a segment of at most 96 rows no two rows get
the same position. -/
theorem well_assigner_synth (df df' : DataFrame)
    (h : ∀ c ∈ df.columns, hasPosToken c = false)
    (h' : ∀ c ∈ df'.columns, hasPosToken c = false)
    (hlen : df'.rows.length = df.rows.length) :
    get_well_positions df =
      (List.range df.rows.length).map (fun i => Value.str (synthWell i))
    ∧ (∀ i, i < df.rows.length → i < 96 →
        (get_well_positions df).getD i Value.nan =
          Value.str ((rowLetters.getD (i / 12) "") ++ toString (i % 12 + 1)))
    ∧ (∀ i, i < df.rows.length → i < 12 →
        (get_well_positions df).getD i Value.nan = Value.str ("A" ++ toString (i + 1)))
    ∧ (∀ i, i < df.rows.length → 12 ≤ i → i < 24 →
        (get_well_positions df).getD i Value.nan = Value.str ("B" ++ toString (i - 12 + 1)))
    ∧ (df.rows.length ≤ 96 → (get_well_positions df).Nodup)
    ∧ get_well_positions df' = get_well_positions df := by
  have hfind : df.columns.find? hasPosToken = none := by
    rw [List.find?_eq_none]
    intro c hc
    rw [h c hc]
    exact Bool.false_ne_true
  have hmain : get_well_positions df =
      (List.range df.rows.length).map (fun i => Value.str (synthWell i)) := by
    unfold get_well_positions
    rw [hfind]
  have hfind' : df'.columns.find? hasPosToken = none := by
    rw [List.find?_eq_none]
    intro c hc
    rw [h' c hc]
    exact Bool.false_ne_true
  refine ⟨hmain, ?_, ?_, ?_, ?_, ?_⟩
  · intro i hi h96
    rw [hmain, getD_map_range _ _ _ hi, synthWell, if_pos (by omega)]
  · intro i hi h12
    rw [hmain, getD_map_range _ _ _ hi, synthWell, if_pos (by omega)]
    have hd : i / 12 = 0 := by omega
    have hm : i % 12 = i := by omega
    rw [hd, hm]
    rfl
  · intro i hi h12 h24
    rw [hmain, getD_map_range _ _ _ hi, synthWell, if_pos (by omega)]
    have hd : i / 12 = 1 := by omega
    have hm : i % 12 = i - 12 := by omega
    rw [hd, hm]
    rfl
  · intro h96
    rw [hmain]
    have heq : (List.range df.rows.length).map (fun i => Value.str (synthWell i)) =
        (((List.range 96).map (fun i => Value.str (synthWell i)))).take df.rows.length := by
      rw [← List.map_take, List.take_range, Nat.min_eq_left h96]
    rw [heq]
    exact synthLabels_nodup_96.sublist (List.take_sublist _ _)
  · unfold get_well_positions
    rw [hfind, hfind', hlen]

/-- Witness for C2 at a concrete 13-row positionless frame: slot 0 is A1,
slot 12 is B1, and all 13 synthesized positions are distinct. -/
theorem well_assigner_synth_witness :
    (∀ c ∈ dfG.columns, hasPosToken c = false)
    ∧ dfG.rows.length = 13
    ∧ (get_well_positions dfG).getD 0 Value.nan = Value.str ("A" ++ toString (0 + 1))
    ∧ (get_well_positions dfG).getD 12 Value.nan = Value.str ("B" ++ toString (12 - 12 + 1))
    ∧ (get_well_positions dfG).Nodup :=
  ⟨by decide, rfl,
   (well_assigner_synth dfG dfG (by decide) (by decide) rfl).2.2.1 0 (by decide) (by decide),
   (well_assigner_synth dfG dfG (by decide) (by decide) rfl).2.2.2.1 12 (by decide)
     (by decide) (by decide),
   (well_assigner_synth dfG dfG (by decide) (by decide) rfl).2.2.2.2.1 (by decide)⟩

/-! ### Column Classifier -/

theorem lookup_filterMap_none {κ β γ : Type} [BEq κ] [LawfulBEq κ]
    (F : β → Option γ) (ps : List (κ × β)) (r : κ)
    (h : r ∉ ps.map Prod.fst) :
    (ps.filterMap (fun p => (F p.2).map (fun c => (p.1, c)))).lookup r = none := by
  induction ps with
  | nil => rfl
  | cons p ps ih =>
    obtain ⟨k, tk⟩ := p
    simp only [List.map_cons, List.mem_cons, not_or] at h
    have hbeq : (r == k) = false := by
      simp only [beq_eq_false_iff_ne, ne_eq]
      exact h.1
    rw [List.filterMap_cons]
    cases F tk with
    | none => exact ih h.2
    | some c =>
      simp only [Option.map_some]
      simp only [List.lookup, hbeq]
      exact ih h.2

theorem lookup_filterMap_find {κ β γ : Type} [BEq κ] [LawfulBEq κ]
    (F : β → Option γ) (ps : List (κ × β)) (r : κ) (b : β)
    (hnd : (ps.map Prod.fst).Nodup) (hmem : (r, b) ∈ ps) :
    (ps.filterMap (fun p => (F p.2).map (fun c => (p.1, c)))).lookup r = F b := by
  induction ps with
  | nil => cases hmem
  | cons p ps ih =>
    obtain ⟨k, tk⟩ := p
    simp only [List.map_cons, List.nodup_cons] at hnd
    rw [List.filterMap_cons]
    rcases List.mem_cons.mp hmem with heq | htail
    · cases heq
      cases hF : F b with
      | none =>
        simp only [Option.map_none]
        exact lookup_filterMap_none F ps r hnd.1
      | some c =>
        simp only [Option.map_some]
        simp [List.lookup]
    · have hne : k ≠ r := by
        intro hcontra
        exact hnd.1 (hcontra ▸ (List.mem_map.mpr ⟨(r, b), htail, rfl⟩))
      have hbeq : (r == k) = false := by
        simp only [beq_eq_false_iff_ne, ne_eq]
        exact fun hc => hne hc.symm
      cases hF : F tk with
      | none => exact ih hnd.2 htail
      | some c =>
        simp only [Option.map_some]
        simp only [List.lookup, hbeq]
        exact ih hnd.2 htail

/-- C8. The Column Classifier binds each reagent of the fixed pattern
table to the first column (in original column order) whose lowercased
name contains one of the reagent's tokens, and leaves the reagent
unbound when no column matches. -/
theorem column_classifier_first_match (df : DataFrame) (r : String) (toks : List String)
    (h : (r, toks) ∈ patterns) :
    (identify_columns df).lookup r =
      df.columns.find? (fun c => toks.any (fun t => strContains (lowerStr c) t)) := by
  have hnd : (patterns.map Prod.fst).Nodup := by decide
  exact lookup_filterMap_find
    (fun tks => df.columns.find? (fun c => tks.any (fun t => strContains (lowerStr c) t)))
    patterns r toks hnd h

/-- Witness for C8: on `dfI`, `glycine` binds to the first matching column
and `tris` (no matching column) is absent. -/
theorem column_classifier_first_match_witness :
    (("glycine", ["gly", "2.4m", "glycine"]) ∈ patterns
      ∧ (identify_columns dfI).lookup "glycine" =
          dfI.columns.find?
            (fun c => ["gly", "2.4m", "glycine"].any (fun t => strContains (lowerStr c) t))
      ∧ dfI.columns.find?
            (fun c => ["gly", "2.4m", "glycine"].any (fun t => strContains (lowerStr c) t)) =
          some "Gly_2.4M")
    ∧ (("tris", ["tris", "buffer", "0.5m"]) ∈ patterns
      ∧ (identify_columns dfI).lookup "tris" =
          dfI.columns.find?
            (fun c => ["tris", "buffer", "0.5m"].any (fun t => strContains (lowerStr c) t))
      ∧ dfI.columns.find?
            (fun c => ["tris", "buffer", "0.5m"].any (fun t => strContains (lowerStr c) t)) =
          none) :=
  ⟨⟨by decide, column_classifier_first_match dfI "glycine" ["gly", "2.4m", "glycine"]
      (by decide), by decide⟩,
   ⟨by decide, column_classifier_first_match dfI "tris" ["tris", "buffer", "0.5m"]
      (by decide), by decide⟩⟩

/-! ### Transfer Grouper: key and index lemmas -/

theorem mem_insertAsc {x q : ℚ} {l : List ℚ} : x ∈ insertAsc q l ↔ x = q ∨ x ∈ l := by
  induction l with
  | nil => simp [insertAsc]
  | cons a as ih =>
    rw [insertAsc]
    split
    · simp [List.mem_cons, or_assoc]
    · split
      · rename_i h1 h2
        subst h2
        simp only [List.mem_cons]
        tauto
      · simp only [List.mem_cons, ih]
        tauto

theorem insertAsc_pairwise {q : ℚ} {l : List ℚ} (h : l.Pairwise (· < ·)) :
    (insertAsc q l).Pairwise (· < ·) := by
  induction l with
  | nil => simp [insertAsc]
  | cons a as ih =>
    rw [List.pairwise_cons] at h
    rw [insertAsc]
    split
    · rename_i h1
      rw [List.pairwise_cons]
      refine ⟨?_, List.pairwise_cons.mpr h⟩
      intro b hb
      rcases List.mem_cons.mp hb with rfl | hbs
      · exact h1
      · exact h1.trans (h.1 b hbs)
    · split
      · exact List.pairwise_cons.mpr h
      · rename_i h1 h2
        rw [List.pairwise_cons]
        refine ⟨?_, ih h.2⟩
        intro b hb
        rcases mem_insertAsc.mp hb with rfl | hbs
        · exact lt_of_le_of_ne (not_lt.mp h1) (fun hc => h2 hc.symm)
        · exact h.1 b hbs

theorem sortedKeys_pairwise (l : List ℚ) : (sortedKeys l).Pairwise (· < ·) := by
  induction l with
  | nil => simp [sortedKeys]
  | cons a as ih =>
    rw [sortedKeys, List.foldr_cons]
    exact insertAsc_pairwise ih

theorem mem_sortedKeys {v : ℚ} {l : List ℚ} : v ∈ sortedKeys l ↔ v ∈ l := by
  induction l with
  | nil => simp [sortedKeys]
  | cons a as ih =>
    rw [sortedKeys, List.foldr_cons, mem_insertAsc, List.mem_cons]
    exact or_congr Iff.rfl ih

theorem cellNum_eq_some {x : Value} {v : ℚ} : cellNum x = some v ↔ x = Value.num v := by
  cases x <;> simp [cellNum]

theorem mem_volKeys {df : DataFrame} {col : String} {v : ℚ} :
    v ∈ volKeys df col ↔ ∃ r ∈ df.rows, getCell r col = Value.num v := by
  rw [volKeys, mem_sortedKeys, List.mem_filterMap]
  simp only [cellNum_eq_some]

theorem mem_volIndices {df : DataFrame} {col : String} {v : ℚ} {i : Nat} :
    i ∈ volIndices df col v ↔
      i < df.rows.length ∧ getCell (df.rows.getD i []) col = Value.num v := by
  rw [volIndices, List.mem_filter, List.mem_range]
  simp only [decide_eq_true_eq]

theorem volIndices_pairwise (df : DataFrame) (col : String) (v : ℚ) :
    (volIndices df col v).Pairwise (· < ·) :=
  List.Pairwise.sublist (List.filter_sublist _) (List.pairwise_lt_range _)

theorem mem_transfersFor {df : DataFrame} {cols : List (String × String)}
    {wp : List Value} {r : String} {t : Transfer} :
    t ∈ transfersFor df cols wp r ↔
      ∃ col, cols.lookup r = some col ∧
        ∃ v, v ∈ volKeys df col ∧ 0 < v ∧ t = mkTransfer df wp r col v := by
  unfold transfersFor
  cases h : cols.lookup r with
  | none => simp
  | some col =>
    simp only [List.mem_map, List.mem_filter, Option.some.injEq]
    constructor
    · rintro ⟨v, ⟨hv, hpos⟩, rfl⟩
      refine ⟨col, rfl, v, hv, ?_, rfl⟩
      simpa using hpos
    · rintro ⟨col', hcol', v, hv, hpos, rfl⟩
      cases hcol'
      refine ⟨v, ⟨hv, ?_⟩, rfl⟩
      simpa using hpos

theorem transfersFor_reagent {df : DataFrame} {cols : List (String × String)}
    {wp : List Value} {r : String} {t : Transfer}
    (h : t ∈ transfersFor df cols wp r) : t.reagent = r := by
  obtain ⟨col, _, v, _, _, rfl⟩ := mem_transfersFor.mp h
  rfl

theorem mem_group_by {df : DataFrame} {cols : List (String × String)}
    {wp : List Value} {t : Transfer} :
    t ∈ group_by_reagent_and_volume df cols wp ↔
      ∃ r ∈ reagent_order, t ∈ transfersFor df cols wp r := by
  unfold group_by_reagent_and_volume
  rw [List.mem_flatten]
  constructor
  · rintro ⟨l, hl, htl⟩
    obtain ⟨r, hr, rfl⟩ := List.mem_map.mp hl
    exact ⟨r, hr, htl⟩
  · rintro ⟨r, hr, ht⟩
    exact ⟨transfersFor df cols wp r, List.mem_map.mpr ⟨r, hr, rfl⟩, ht⟩

theorem mkTransfer_fields (df : DataFrame) (wp : List Value) (r col : String) (v : ℚ) :
    (mkTransfer df wp r col v).reagent = r
    ∧ (mkTransfer df wp r col v).volume = v
    ∧ (mkTransfer df wp r col v).source_tube = tube_position r
    ∧ (mkTransfer df wp r col v).wells =
        (volIndices df col v).map (fun i => wp.getD i Value.nan) :=
  ⟨rfl, rfl, rfl, rfl⟩

theorem group_by_shape {df : DataFrame} {cols : List (String × String)}
    {wp : List Value} {r col : String} {t : Transfer}
    (hcol : cols.lookup r = some col)
    (ht : t ∈ group_by_reagent_and_volume df cols wp) (hrt : t.reagent = r) :
    ∃ v, 0 < v ∧ v ∈ volKeys df col ∧ t = mkTransfer df wp r col v := by
  obtain ⟨r', hr', ht'⟩ := mem_group_by.mp ht
  have hre : r' = r := by
    have h1 := transfersFor_reagent ht'
    rw [hrt] at h1
    exact h1.symm
  subst hre
  obtain ⟨col', hcol', v, hv, hpos, rfl⟩ := mem_transfersFor.mp ht'
  rw [hcol] at hcol'
  have hcc : col = col' := by injection hcol'
  subst hcc
  exact ⟨v, hpos, hv, rfl⟩

/-- C3. Grouper invariants: every Transfer Request of a bound reagent `r`
has a strictly positive volume, the source container determined solely by
the reagent, and destination wells exactly the positions of the rows whose
cell in `r`'s bound column equals the request's volume; rows with a
non-positive value never contribute; and the union of destination wells
over `r`'s requests is exactly the set of positions of rows with a
strictly positive value in `r`'s column. -/
theorem grouper_invariants (df : DataFrame) (cols : List (String × String))
    (wp : List Value) (r col : String)
    (hr : r ∈ reagent_order) (hcol : cols.lookup r = some col) :
    (∀ t ∈ group_by_reagent_and_volume df cols wp, t.reagent = r →
        0 < t.volume
        ∧ t.source_tube = tube_position r
        ∧ t.wells = (volIndices df col t.volume).map (fun i => wp.getD i Value.nan)
        ∧ ∀ i ∈ volIndices df col t.volume,
            getCell (df.rows.getD i []) col = Value.num t.volume)
    ∧ (∀ t ∈ group_by_reagent_and_volume df cols wp, t.reagent = r →
        ∀ i v', getCell (df.rows.getD i []) col = Value.num v' → v' ≤ 0 →
          i ∉ volIndices df col t.volume)
    ∧ (∀ w, (∃ t ∈ group_by_reagent_and_volume df cols wp, t.reagent = r ∧ w ∈ t.wells)
        ↔ ∃ i, i < df.rows.length
            ∧ (∃ v, 0 < v ∧ getCell (df.rows.getD i []) col = Value.num v)
            ∧ wp.getD i Value.nan = w) := by
  refine ⟨?_, ?_, ?_⟩
  · intro t ht hrt
    obtain ⟨v, hpos, hv, rfl⟩ := group_by_shape hcol ht hrt
    have hf := mkTransfer_fields df wp r col v
    refine ⟨?_, ?_, ?_, ?_⟩
    · rw [hf.2.1]
      exact hpos
    · rw [hf.2.2.1]
    · rw [hf.2.2.2, hf.2.1]
    · rw [hf.2.1]
      intro i hi
      exact (mem_volIndices.mp hi).2
  · intro t ht hrt i v' hcell hle
    obtain ⟨v, hpos, hv, rfl⟩ := group_by_shape hcol ht hrt
    have hf := mkTransfer_fields df wp r col v
    rw [hf.2.1]
    intro hmem
    have h2 := (mem_volIndices.mp hmem).2
    rw [hcell] at h2
    have hvv : v' = v := by injection h2
    subst hvv
    exact absurd hpos (not_lt.mpr hle)
  · intro w
    constructor
    · rintro ⟨t, ht, hrt, hw⟩
      obtain ⟨v, hpos, hv, rfl⟩ := group_by_shape hcol ht hrt
      have hf := mkTransfer_fields df wp r col v
      rw [hf.2.2.2] at hw
      obtain ⟨i, hi, rfl⟩ := List.mem_map.mp hw
      obtain ⟨hlt, hcell⟩ := mem_volIndices.mp hi
      exact ⟨i, hlt, ⟨v, hpos, hcell⟩, rfl⟩
    · rintro ⟨i, hlt, ⟨v, hpos, hcell⟩, rfl⟩
      refine ⟨mkTransfer df wp r col v, ?_, (mkTransfer_fields df wp r col v).1, ?_⟩
      · apply mem_group_by.mpr
        refine ⟨r, hr, ?_⟩
        apply mem_transfersFor.mpr
        refine ⟨col, hcol, v, ?_, hpos, rfl⟩
        apply mem_volKeys.mpr
        refine ⟨df.rows.getD i [], ?_, hcell⟩
        rw [List.getD_eq_getElem _ _ hlt]
        exact List.getElem_mem hlt
      · rw [(mkTransfer_fields df wp r col v).2.2.2]
        exact List.mem_map.mpr ⟨i, mem_volIndices.mpr ⟨hlt, hcell⟩, rfl⟩

/-- Witness for C3 on the concrete table `dfT`. -/
theorem grouper_invariants_witness :
    ("glycine" ∈ reagent_order)
    ∧ (colsT.lookup "glycine" = some "Gly_2.4M")
    ∧ (trT ∈ group_by_reagent_and_volume dfT colsT wpT)
    ∧ (0 < trT.volume
        ∧ trT.source_tube = tube_position "glycine"
        ∧ trT.wells =
            (volIndices dfT "Gly_2.4M" trT.volume).map (fun i => wpT.getD i Value.nan)
        ∧ ∀ i ∈ volIndices dfT "Gly_2.4M" trT.volume,
            getCell (dfT.rows.getD i []) "Gly_2.4M" = Value.num trT.volume)
    ∧ ((∃ t ∈ group_by_reagent_and_volume dfT colsT wpT,
          t.reagent = "glycine" ∧ Value.str "A1" ∈ t.wells)
        ↔ ∃ i, i < dfT.rows.length
            ∧ (∃ v, 0 < v ∧ getCell (dfT.rows.getD i []) "Gly_2.4M" = Value.num v)
            ∧ wpT.getD i Value.nan = Value.str "A1") :=
  ⟨by decide, by decide, by decide,
   (grouper_invariants dfT colsT wpT "glycine" "Gly_2.4M" (by decide) (by decide)).1
     trT (by decide) (by decide),
   (grouper_invariants dfT colsT wpT "glycine" "Gly_2.4M" (by decide) (by decide)).2.2
     (Value.str "A1")⟩

theorem filter_block_self (df : DataFrame) (cols : List (String × String))
    (wp : List Value) (r : String) :
    (transfersFor df cols wp r).filter (fun t => t.reagent == r) =
      transfersFor df cols wp r :=
  List.filter_eq_self.mpr (fun t ht => by
    rw [transfersFor_reagent ht]
    exact beq_self_eq_true r)

theorem filter_block_ne (df : DataFrame) (cols : List (String × String))
    (wp : List Value) {r r' : String} (h : r' ≠ r) :
    (transfersFor df cols wp r').filter (fun t => t.reagent == r) = [] :=
  List.filter_eq_nil_iff.mpr (fun t ht => by
    rw [transfersFor_reagent ht]
    simp [h])

theorem transfersFor_pairwise_volume (df : DataFrame) (cols : List (String × String))
    (wp : List Value) (r : String) :
    (transfersFor df cols wp r).Pairwise (fun t t' => t.volume < t'.volume) := by
  unfold transfersFor
  cases h : cols.lookup r with
  | none => simp
  | some col =>
    rw [List.pairwise_map]
    apply List.Pairwise.sublist (List.filter_sublist _)
    exact (sortedKeys_pairwise _).imp (fun hab => hab)

/-- C4. Canonical emission order of the Grouper: the output's reagent
blocks follow the fixed priority sequence (tris, nacl, glycine, water),
independent of the table's column arrangement; the requests of one
reagent form one contiguous block with strictly ascending volumes; and
each request's destination wells follow the contributing rows' relative
order within the segment (a strictly increasing index list). -/
theorem grouper_canonical_order (df : DataFrame) (cols : List (String × String))
    (wp : List Value) :
    ((group_by_reagent_and_volume df cols wp).Pairwise
        (fun t t' => reagentPriority t.reagent ≤ reagentPriority t'.reagent))
    ∧ (∀ r ∈ reagent_order,
        (group_by_reagent_and_volume df cols wp).filter (fun t => t.reagent == r) =
          transfersFor df cols wp r)
    ∧ (∀ r, (transfersFor df cols wp r).Pairwise (fun t t' => t.volume < t'.volume))
    ∧ (∀ t ∈ group_by_reagent_and_volume df cols wp,
        ∃ col, cols.lookup t.reagent = some col
          ∧ t.wells = (volIndices df col t.volume).map (fun i => wp.getD i Value.nan)
          ∧ (volIndices df col t.volume).Pairwise (· < ·)) := by
  refine ⟨?_, ?_, transfersFor_pairwise_volume df cols wp, ?_⟩
  · unfold group_by_reagent_and_volume
    rw [List.pairwise_flatten]
    constructor
    · intro l hl
      obtain ⟨r, hr, rfl⟩ := List.mem_map.mp hl
      apply List.pairwise_of_forall_mem_list
      intro a ha b hb
      rw [transfersFor_reagent ha, transfersFor_reagent hb]
    · rw [List.pairwise_map]
      have hp : reagent_order.Pairwise
          (fun r r' => reagentPriority r ≤ reagentPriority r') := by decide
      refine hp.imp ?_
      intro r r' h x hx y hy
      rw [transfersFor_reagent hx, transfersFor_reagent hy]
      exact h
  · intro r hr
    unfold group_by_reagent_and_volume
    fin_cases hr
    · simp only [reagent_order, List.map_cons, List.map_nil, List.flatten_cons,
        List.flatten_nil, List.append_nil, List.filter_append]
      rw [filter_block_self, filter_block_ne df cols wp (by decide),
        filter_block_ne df cols wp (by decide), filter_block_ne df cols wp (by decide)]
      simp
    · simp only [reagent_order, List.map_cons, List.map_nil, List.flatten_cons,
        List.flatten_nil, List.append_nil, List.filter_append]
      rw [filter_block_self, filter_block_ne df cols wp (by decide),
        filter_block_ne df cols wp (by decide), filter_block_ne df cols wp (by decide)]
      simp
    · simp only [reagent_order, List.map_cons, List.map_nil, List.flatten_cons,
        List.flatten_nil, List.append_nil, List.filter_append]
      rw [filter_block_self, filter_block_ne df cols wp (by decide),
        filter_block_ne df cols wp (by decide), filter_block_ne df cols wp (by decide)]
      simp
    · simp only [reagent_order, List.map_cons, List.map_nil, List.flatten_cons,
        List.flatten_nil, List.append_nil, List.filter_append]
      rw [filter_block_self, filter_block_ne df cols wp (by decide),
        filter_block_ne df cols wp (by decide), filter_block_ne df cols wp (by decide)]
      simp
  · intro t ht
    obtain ⟨r', hr', ht'⟩ := mem_group_by.mp ht
    obtain ⟨col, hcol, v, hv, hpos, rfl⟩ := mem_transfersFor.mp ht'
    have hf := mkTransfer_fields df wp r' col v
    refine ⟨col, ?_, ?_, ?_⟩
    · rw [hf.1]
      exact hcol
    · rw [hf.2.2.2, hf.2.1]
    · rw [hf.2.1]
      exact volIndices_pairwise df col v

/-- Witness for C4 on the concrete table `dfT`. -/
theorem grouper_canonical_order_witness :
    ("glycine" ∈ reagent_order
      ∧ (group_by_reagent_and_volume dfT colsT wpT).filter
          (fun t => t.reagent == "glycine") = transfersFor dfT colsT wpT "glycine")
    ∧ (trT ∈ group_by_reagent_and_volume dfT colsT wpT
      ∧ ∃ col, colsT.lookup trT.reagent = some col
          ∧ trT.wells = (volIndices dfT col trT.volume).map (fun i => wpT.getD i Value.nan)
          ∧ (volIndices dfT col trT.volume).Pairwise (· < ·)) :=
  ⟨⟨by decide, (grouper_canonical_order dfT colsT wpT).2.1 "glycine" (by decide)⟩,
   ⟨by decide, (grouper_canonical_order dfT colsT wpT).2.2.2 trT (by decide)⟩⟩

/-! ### Missing values (NaN) in a reagent column -/

/-- C10. A row whose cell in a bound reagent column is missing (NaN)
contributes to none of that reagent's Transfer Requests — the grouping
drops rows with a missing key, silently, exactly as it drops non-positive
volumes — while the row still occupies its slot in the segment's position
enumeration. -/
theorem missing_value_excluded (df : DataFrame) (cols : List (String × String))
    (wp : List Value) (r col : String) (i : Nat)
    (hcol : cols.lookup r = some col)
    (hi : i < df.rows.length)
    (hnan : getCell (df.rows.getD i []) col = Value.nan) :
    (∀ t ∈ group_by_reagent_and_volume df cols wp, t.reagent = r →
        i ∉ volIndices df col t.volume
        ∧ t.wells = (volIndices df col t.volume).map (fun j => wp.getD j Value.nan))
    ∧ (∀ v : ℚ, i ∉ volIndices df col v)
    ∧ ((∀ c ∈ df.columns, hasPosToken c = false) →
        (get_well_positions df).length = df.rows.length
        ∧ (get_well_positions df).getD i Value.nan = Value.str (synthWell i)) := by
  have hnotin : ∀ v : ℚ, i ∉ volIndices df col v := by
    intro v hmem
    have h2 := (mem_volIndices.mp hmem).2
    rw [hnan] at h2
    exact Value.noConfusion h2
  refine ⟨?_, hnotin, ?_⟩
  · intro t ht hrt
    obtain ⟨v, hpos, hv, rfl⟩ := group_by_shape hcol ht hrt
    have hf := mkTransfer_fields df wp r col v
    constructor
    · rw [hf.2.1]
      exact hnotin v
    · rw [hf.2.2.2, hf.2.1]
  · intro hnopos
    have hfind : df.columns.find? hasPosToken = none := by
      rw [List.find?_eq_none]
      intro c hc
      rw [hnopos c hc]
      exact Bool.false_ne_true
    have hmain : get_well_positions df =
        (List.range df.rows.length).map (fun j => Value.str (synthWell j)) := by
      unfold get_well_positions
      rw [hfind]
    constructor
    · rw [hmain, List.length_map, List.length_range]
    · rw [hmain, getD_map_range _ _ _ hi]

/-- Witness for C10 on `dfN`: row 1's value is missing, row 1 is in no
volume group of glycine, yet position slot 1 is still assigned (`A2`). -/
theorem missing_value_excluded_witness :
    (colsN.lookup "glycine" = some "Gly_2.4M")
    ∧ (1 < dfN.rows.length)
    ∧ (getCell (dfN.rows.getD 1 []) "Gly_2.4M" = Value.nan)
    ∧ (trN ∈ group_by_reagent_and_volume dfN colsN wpN)
    ∧ (1 ∉ volIndices dfN "Gly_2.4M" trN.volume
        ∧ trN.wells = (volIndices dfN "Gly_2.4M" trN.volume).map
            (fun j => wpN.getD j Value.nan))
    ∧ (1 ∉ volIndices dfN "Gly_2.4M" 5)
    ∧ ((get_well_positions dfN).length = dfN.rows.length
        ∧ (get_well_positions dfN).getD 1 Value.nan = Value.str (synthWell 1)) :=
  ⟨by decide, by decide, by decide, by decide,
   (missing_value_excluded dfN colsN wpN "glycine" "Gly_2.4M" 1
      (by decide) (by decide) (by decide)).1 trN (by decide) (by decide),
   (missing_value_excluded dfN colsN wpN "glycine" "Gly_2.4M" 1
      (by decide) (by decide) (by decide)).2.1 5,
   (missing_value_excluded dfN colsN wpN "glycine" "Gly_2.4M" 1
      (by decide) (by decide) (by decide)).2.2 (by decide)⟩

/-! ### Empty input and the caller -/

/-- C7 counterexample: on `dfE` the validated row set is empty and the
pipeline emits `some []` (zero programs) while an unreadable table gives
`none`; but the caller `main` (`if generated_files:`) reports both
identically, so the caller does not distinguish the empty outcome from a
processing failure. -/
theorem empty_input_not_distinguished_by_main :
    (filter_valid_wells dfE).1.rows = []
    ∧ generate_full_protocol (some dfE) = some []
    ∧ generate_full_protocol none = none
    ∧ main_success (generate_full_protocol (some dfE)) =
        main_success (generate_full_protocol none) := by
  have h : (filter_valid_wells dfE).1.rows = [] := by decide
  have hseg : segment_data (filter_valid_wells dfE).1 = [] := by
    unfold segment_data
    rw [h, chunk28]
    rfl
  have hgen : generate_full_protocol (some dfE) = some [] := by
    unfold generate_full_protocol
    simp only [hseg, List.map_nil]
  refine ⟨h, hgen, rfl, ?_⟩
  rw [hgen]
  rfl

/-- C7 amended: an empty validated row set yields zero segments and zero
emitted programs, and `generate_full_protocol` itself signals this as
`some []`, distinct from the `none` of an unreadable input table; the
caller `main`, however, reports both outcomes identically as failure. -/
theorem empty_input_zero_outputs (df : DataFrame)
    (h : (filter_valid_wells df).1.rows = []) :
    segment_data (filter_valid_wells df).1 = []
    ∧ generate_full_protocol (some df) = some []
    ∧ generate_full_protocol none = none
    ∧ some ([] : List (List (Transfer × (String × String)))) ≠ none
    ∧ main_success (generate_full_protocol (some df)) = false
    ∧ main_success (generate_full_protocol none) = false := by
  have hseg : segment_data (filter_valid_wells df).1 = [] := by
    unfold segment_data
    rw [h, chunk28]
    rfl
  have hgen : generate_full_protocol (some df) = some [] := by
    unfold generate_full_protocol
    simp only [hseg, List.map_nil]
  refine ⟨hseg, hgen, rfl, by simp, ?_, rfl⟩
  rw [hgen]
  rfl

/-- Witness for the amended C7 at the concrete table `dfE`. -/
theorem empty_input_zero_outputs_witness :
    (filter_valid_wells dfE).1.rows = []
    ∧ segment_data (filter_valid_wells dfE).1 = []
    ∧ generate_full_protocol (some dfE) = some []
    ∧ main_success (generate_full_protocol (some dfE)) = false :=
  ⟨by decide, (empty_input_zero_outputs dfE (by decide)).1,
   (empty_input_zero_outputs dfE (by decide)).2.1,
   (empty_input_zero_outputs dfE (by decide)).2.2.2.2.1⟩

/-! ### Determinism of the whole pipeline -/

/-- C9. Two runs of the pipeline on identical input produce identical
routed Transfer Request sequences, and every stage (validation,
classification, batching, well assignment, grouping with routing) is
deterministic in the same two-run sense. -/
theorem pipeline_deterministic (i1 i2 : Option DataFrame) (h : i1 = i2) :
    generate_full_protocol i1 = generate_full_protocol i2
    ∧ ∀ df df' : DataFrame, df = df' →
        filter_valid_wells df = filter_valid_wells df'
        ∧ identify_columns df = identify_columns df'
        ∧ segment_data df = segment_data df'
        ∧ get_well_positions df = get_well_positions df'
        ∧ ∀ (cols : List (String × String)) (wp : List Value),
            group_by_reagent_and_volume df cols wp = group_by_reagent_and_volume df' cols wp
            ∧ segment_output cols df = segment_output cols df' := by
  subst h
  exact ⟨rfl, fun df df' hdf => by
    subst hdf
    exact ⟨rfl, rfl, rfl, rfl, fun cols wp => ⟨rfl, rfl⟩⟩⟩

/-- Witness for C9: the two-run equality at the concrete table `dfT`. -/
theorem pipeline_deterministic_witness :
    (some dfT = some dfT)
    ∧ generate_full_protocol (some dfT) = generate_full_protocol (some dfT)
    ∧ filter_valid_wells dfT = filter_valid_wells dfT :=
  ⟨rfl, (pipeline_deterministic (some dfT) (some dfT) rfl).1,
   ((pipeline_deterministic (some dfT) (some dfT) rfl).2 dfT dfT rfl).1⟩

end CsvGen
